import Mathlib

/-!
Verification of the research-pipeline server (Groq compound research).

Shallow embedding of the code under src/server, translated from the TypeScript
source:

* src/server/services/researchService.ts : the pipeline orchestrator
  (executeResearch), the question parsing inside generateFollowUpQuestions,
  answerFollowUpQuestions, and the outline parser (parseOutline).
* src/server/controllers/researchController.ts : the session registry and the
  state-relevant effects of startResearch / streamResearch /
  processResearchQuery.

Modelling conventions:

* JavaScript strings are modelled as Lean String (a list of characters); string
  library operations (trim, split, substring, indexOf, toLowerCase, includes,
  the two regexes used by the question fallback) are implemented here on
  List Char with structural recursion so that everything evaluates by
  kernel reduction.  JS trim / the regex class for spaces are modelled over
  the ASCII whitespace characters, JSON.parse whitespace over the four JSON
  whitespace characters, and toLowerCase over ASCII letters; every input that
  appears in the repository or the claims is ASCII.
* JSON.parse is modelled by an executable JSON parser (jsonParse) producing a
  Json value; it implements the JSON grammar (null, booleans, numbers kept as
  lexemes, strings with escapes, arrays, objects) and succeeds exactly when the
  whole input is one JSON value, as JSON.parse does.
* The external completion service (GroqService.processPrompt) is modelled by an
  oracle, a function from the index of the completion call (0, 1, 2, ... in
  call order) to Except String String: Except.ok is the returned text,
  Except.error a thrown failure.  Since the pipeline is deterministic given the
  responses, indexing the oracle by call count subsumes any dependence of the
  response on the prompt text, so the prompt-template plumbing (prompts.ts,
  truncateText), whose output flows only into processPrompt, is not re-modelled.
* Numeric progress values are exact rationals; the source computes
  35 / sections.length with JS numbers, here 35 / n in Rat.
* An EventEmitter emission is one element of the returned event trace.
-/

/-! ## String utilities (JS semantics on List Char) -/

/-- Whitespace for the JS trim operation and the regex class used in
the numbered-line fallback (ASCII part). -/
def wsChar (c : Char) : Bool :=
  c = ' ' || c = '\t' || c = '\n' || c = '\r' || c = '\x0b' || c = '\x0c'

/-- Trim as in JS String.prototype.trim (ASCII whitespace). -/
def trimChars (cs : List Char) : List Char :=
  ((cs.dropWhile wsChar).reverse.dropWhile wsChar).reverse

/-- Trim as a String operation. -/
def jsTrim (s : String) : String := ⟨trimChars s.data⟩

/-- Split a character list on a newline character, as JS split with a
one-character separator string: the empty input yields one empty field. -/
def splitNl : List Char → List (List Char)
  | [] => [[]]
  | c :: rest =>
    if c = '\n' then [] :: splitNl rest
    else
      match splitNl rest with
      | [] => [[c]]
      | l :: ls => (c :: l) :: ls

/-- The lines of a string, as JS s.split(String.fromCharCode 10). -/
def jsLines (s : String) : List String := (splitNl s.data).map fun cs => ⟨cs⟩

/-- Lowercasing as in JS toLowerCase, on the ASCII letters. -/
def lowerStr (s : String) : String := ⟨s.data.map Char.toLower⟩

/-- Does p occur as a contiguous run inside l?  (JS String.prototype.includes.) -/
def listHasSub (p : List Char) : List Char → Bool
  | [] => p.isEmpty
  | c :: rest => p.isPrefixOf (c :: rest) || listHasSub p rest

/-- JS s.includes pat. -/
def strIncludes (s pat : String) : Bool := listHasSub pat.data s.data

/-- JS s.startsWith pat. -/
def strStartsWith (s pat : String) : Bool := pat.data.isPrefixOf s.data

/-- JS s.substring n (drop the first n characters). -/
def strDropn (s : String) (n : Nat) : String := ⟨s.data.drop n⟩

/-- Index of the first occurrence of a character (JS indexOf). -/
def idxOfAux (c : Char) : List Char → Nat → Option Nat
  | [], _ => none
  | x :: rest, i => if x = c then some i else idxOfAux c rest (i + 1)

/-- Index of the last occurrence of a character (JS lastIndexOf). -/
def lastIdxOf (c : Char) (cs : List Char) : Option Nat :=
  match idxOfAux c cs.reverse 0 with
  | some j => some (cs.length - 1 - j)
  | none => none

/-! ## JSON values and JSON.parse -/

/-- A JSON value.  Number literals are kept as their lexeme: no claim depends
on numeric values, only on the shape of the parsed data. -/
inductive Json where
  | null : Json
  | bool (b : Bool) : Json
  | num (lexeme : String) : Json
  | str (s : String) : Json
  | arr (elems : List Json) : Json
  | obj (fields : List (String × Json)) : Json

/-- JSON whitespace (the only four characters JSON.parse skips). -/
def jsonWs (c : Char) : Bool :=
  c = ' ' || c = '\t' || c = '\n' || c = '\r'

/-- Skip JSON whitespace. -/
def skipWs (cs : List Char) : List Char := cs.dropWhile jsonWs

/-- Hex digit value. -/
def hexVal (c : Char) : Option Nat :=
  if '0' ≤ c ∧ c ≤ '9' then some (c.toNat - '0'.toNat)
  else if 'a' ≤ c ∧ c ≤ 'f' then some (c.toNat - 'a'.toNat + 10)
  else if 'A' ≤ c ∧ c ≤ 'F' then some (c.toNat - 'A'.toNat + 10)
  else none

/-- Single-character JSON string escapes. -/
def escMap (c : Char) : Option Char :=
  if c = '"' then some '"'
  else if c = '\\' then some '\\'
  else if c = '/' then some '/'
  else if c = 'b' then some '\x08'
  else if c = 'f' then some '\x0c'
  else if c = 'n' then some '\n'
  else if c = 'r' then some '\r'
  else if c = 't' then some '\t'
  else none

/-- Body of a JSON string after the opening quote: returns the decoded
characters and the rest after the closing quote. -/
def parseJStr : Nat → List Char → Option (List Char × List Char)
  | 0, _ => none
  | _, [] => none
  | fuel + 1, c :: rest =>
    if c = '"' then some ([], rest)
    else if c = '\\' then
      match rest with
      | [] => none
      | e :: rest2 =>
        if e = 'u' then
          match rest2 with
          | h1 :: h2 :: h3 :: h4 :: rest3 =>
            match hexVal h1, hexVal h2, hexVal h3, hexVal h4 with
            | some n1, some n2, some n3, some n4 =>
              match parseJStr fuel rest3 with
              | some (s, r) =>
                some (Char.ofNat (((n1 * 16 + n2) * 16 + n3) * 16 + n4) :: s, r)
              | none => none
            | _, _, _, _ => none
          | _ => none
        else
          match escMap e with
          | some c' =>
            match parseJStr fuel rest2 with
            | some (s, r) => some (c' :: s, r)
            | none => none
          | none => none
    else if c.toNat < 32 then none
    else
      match parseJStr fuel rest with
      | some (s, r) => some (c :: s, r)
      | none => none

/-- A JSON number lexeme at the head of the input, following the JSON number
grammar; a malformed tail (as in 1. or 2e) is left unconsumed and then rejected
by the caller, which matches where JSON.parse reports the error. -/
def parseNum (cs : List Char) : Option (List Char × List Char) :=
  let (neg, cs1) : List Char × List Char :=
    match cs with
    | '-' :: r => (['-'], r)
    | _ => ([], cs)
  match cs1 with
  | [] => none
  | c :: _ =>
    if c.isDigit then
      let intPart := if c = '0' then ['0'] else cs1.takeWhile Char.isDigit
      let rest1 := cs1.drop intPart.length
      let (frac, rest2) : List Char × List Char :=
        match rest1 with
        | '.' :: r =>
          let ds := r.takeWhile Char.isDigit
          if ds.isEmpty then ([], rest1) else ('.' :: ds, r.drop ds.length)
        | _ => ([], rest1)
      let (expo, rest3) : List Char × List Char :=
        match rest2 with
        | e :: r =>
          if e = 'e' ∨ e = 'E' then
            let (sgn, r2) : List Char × List Char :=
              match r with
              | s :: rr => if s = '+' ∨ s = '-' then ([s], rr) else ([], r)
              | [] => ([], r)
            let ds := r2.takeWhile Char.isDigit
            if ds.isEmpty then ([], rest2)
            else (e :: (sgn ++ ds), r2.drop ds.length)
          else ([], rest2)
        | [] => ([], rest2)
      some (neg ++ intPart ++ frac ++ expo, rest3)
    else none

mutual

/-- One JSON value at the head of the input (after optional whitespace). -/
def parseJson : Nat → List Char → Option (Json × List Char)
  | 0, _ => none
  | fuel + 1, cs =>
    match skipWs cs with
    | [] => none
    | c :: rest =>
      if c = '"' then
        match parseJStr (fuel + 1) rest with
        | some (s, r) => some (Json.str ⟨s⟩, r)
        | none => none
      else if c = '[' then
        match skipWs rest with
        | ']' :: r => some (Json.arr [], r)
        | r => match parseArrElems fuel r with
               | some (vs, r2) => some (Json.arr vs, r2)
               | none => none
      else if c = '{' then
        match skipWs rest with
        | '}' :: r => some (Json.obj [], r)
        | r => match parseObjFields fuel r with
               | some (fs, r2) => some (Json.obj fs, r2)
               | none => none
      else if ['t', 'r', 'u', 'e'].isPrefixOf (c :: rest) then
        some (Json.bool true, (c :: rest).drop 4)
      else if ['f', 'a', 'l', 's', 'e'].isPrefixOf (c :: rest) then
        some (Json.bool false, (c :: rest).drop 5)
      else if ['n', 'u', 'l', 'l'].isPrefixOf (c :: rest) then
        some (Json.null, (c :: rest).drop 4)
      else
        match parseNum (c :: rest) with
        | some (lex, r) => some (Json.num ⟨lex⟩, r)
        | none => none

/-- Comma-separated JSON array elements up to the closing bracket. -/
def parseArrElems : Nat → List Char → Option (List Json × List Char)
  | 0, _ => none
  | fuel + 1, cs =>
    match parseJson fuel cs with
    | none => none
    | some (v, r) =>
      match skipWs r with
      | ']' :: r2 => some ([v], r2)
      | ',' :: r2 =>
        match parseArrElems fuel r2 with
        | some (vs, r3) => some (v :: vs, r3)
        | none => none
      | _ => none

/-- Comma-separated JSON object fields up to the closing brace. -/
def parseObjFields : Nat → List Char → Option (List (String × Json) × List Char)
  | 0, _ => none
  | fuel + 1, cs =>
    match skipWs cs with
    | '"' :: r =>
      match parseJStr fuel r with
      | none => none
      | some (key, r2) =>
        match skipWs r2 with
        | ':' :: r3 =>
          match parseJson fuel r3 with
          | none => none
          | some (v, r4) =>
            match skipWs r4 with
            | '}' :: r5 => some ([(⟨key⟩, v)], r5)
            | ',' :: r5 =>
              match parseObjFields fuel r5 with
              | some (fs, r6) => some ((⟨key⟩, v) :: fs, r6)
              | none => none
            | _ => none
        | _ => none
    | _ => none

end

/-- JSON.parse: succeeds iff the whole input (up to surrounding whitespace)
is one JSON value. -/
def jsonParse (s : String) : Option Json :=
  match parseJson (4 * (s.data.length + 1)) s.data with
  | some (v, rest) => if (skipWs rest).isEmpty then some v else none
  | none => none

/-! ## generateFollowUpQuestions: parsing of the question response
(src/server/services/researchService.ts, lines 227-278).  The single
completion call of the stage is made by the orchestrator below; the pure
response-to-questions logic is factored here. -/

/-- The lines of the response that pass the leading-number test
(trimmedLine matches digits then a dot), each with the numbering stripped from
the untrimmed line (the replace regex is anchored at the start of the raw
line) and then trimmed, as in the source's fallback. -/
def numberedLineTest (line : String) : Bool :=
  let t := trimChars line.data
  let ds := t.takeWhile Char.isDigit
  !ds.isEmpty && (t.drop ds.length).head? = some '.'

/-- JS line.replace anchored-number-dot-spaces pattern with the empty string. -/
def stripNumbering (line : String) : String :=
  let cs := line.data
  let ds := cs.takeWhile Char.isDigit
  if ds.isEmpty then line
  else
    match cs.drop ds.length with
    | '.' :: rest => ⟨rest.dropWhile wsChar⟩
    | _ => line

/-- The numbered-list fallback parse of the response. -/
def questionsFromLines (response : String) : List Json :=
  ((jsLines response).filter numberedLineTest).map fun l =>
    Json.str (jsTrim (stripNumbering l))

/-- The five template questions synthesized when no parse attempt yields any
question. -/
def defaultQuestions (query : String) : List Json :=
  [Json.str ("What are the key aspects of " ++ query ++ "?"),
   Json.str ("What are the main challenges regarding " ++ query ++ "?"),
   Json.str ("What are some recent developments in " ++ query ++ "?"),
   Json.str ("How does " ++ query ++ " impact various stakeholders?"),
   Json.str ("What future trends are expected for " ++ query ++ "?")]

/-- The substring between the first opening bracket and the last closing
bracket, when both exist in that order (the catch branch of the source). -/
def extractCandidate (response : String) : Option String :=
  let cs := response.data
  match idxOfAux '[' cs 0, lastIdxOf ']' cs with
  | some s, some e => if s < e then some ⟨(cs.drop s).take (e + 1 - s)⟩ else none
  | _, _ => none

/-- The fallback after both JSON attempts: numbered lines, else the synthesized
defaults, truncated to five. -/
def fallbackQuestions (query response : String) : List Json :=
  let qs := questionsFromLines response
  if qs.isEmpty then defaultQuestions query else qs.take 5

/-- The questions extracted from the question-stage response: direct JSON
parse if it yields an array; else, only when the direct parse fails, the
bracket-substring parse; else the numbered-line / synthesized fallback. -/
def parseQuestions (query response : String) : List Json :=
  match jsonParse response with
  | some (Json.arr xs) => xs.take 5
  | some _ => fallbackQuestions query response
  | none =>
    match extractCandidate response with
    | some sub =>
      match jsonParse sub with
      | some (Json.arr xs) => xs.take 5
      | _ => fallbackQuestions query response
    | none => fallbackQuestions query response

/-! ## parseOutline (src/server/services/researchService.ts, lines 335-392) -/

/-- A section descriptor produced by the outline parser. -/
structure OutlineSection where
  title : String
  level : Nat
  description : String
deriving DecidableEq

/-- The header-parsing line loop of parseOutline: fold over the lines with the
current section under construction. -/
def parseOutlineLines : List String → Option OutlineSection → List OutlineSection
  | [], cur =>
    match cur with
    | some s => [s]
    | none => []
  | line :: rest, cur =>
    let t := jsTrim line
    if t = "" then parseOutlineLines rest cur
    else if strStartsWith t "## " then
      match cur with
      | some s => s :: parseOutlineLines rest (some ⟨strDropn t 3, 1, ""⟩)
      | none => parseOutlineLines rest (some ⟨strDropn t 3, 1, ""⟩)
    else if strStartsWith t "### " then
      match cur with
      | some s =>
        parseOutlineLines rest (some { s with description :=
          (if s.description = "" then strDropn t 4
           else s.description ++ " " ++ strDropn t 4) })
      | none => parseOutlineLines rest none
    else if strStartsWith t "#" then parseOutlineLines rest cur
    else
      match cur with
      | some s =>
        parseOutlineLines rest (some { s with description :=
          (if s.description = "" then t else s.description ++ " " ++ t) })
      | none => parseOutlineLines rest none

/-- The default structure substituted when parsing produced no sections. -/
def defaultSections : List OutlineSection :=
  [⟨"Main Findings", 1, "Key research findings"⟩,
   ⟨"Analysis", 1, "Analysis of the research"⟩,
   ⟨"Discussion", 1, "Discussion of implications"⟩]

/-- Keep a section unless its lowercased title includes executive summary or
conclusion. -/
def keepSection (s : OutlineSection) : Bool :=
  let titleLower := lowerStr s.title
  !strIncludes titleLower "executive summary" && !strIncludes titleLower "conclusion"

/-- parseOutline: header parsing, then the 3-section default when that yields
nothing, then the executive-summary/conclusion filter — in that order, as in
the source. -/
def parseOutline (outline : String) : List OutlineSection :=
  let sections := parseOutlineLines (jsLines outline) none
  let sections := if sections.isEmpty then defaultSections else sections
  sections.filter keepSection

/-! ## The event trace of the pipeline orchestrator
(src/server/services/researchService.ts, executeResearch, lines 15-223).
Each constructor is one named EventEmitter event with its payload; progress
values are exact rationals. -/

/-- An emitted pipeline event. -/
inductive Event where
  | progress (message : String) (isCompleted : Bool) (step : String) (value : ℚ)
  | questions (questions : List Json)
  | qa (question : Json) (answer : String)
  | title (title : String)
  | outline (outline : String)
  | sectionEvent (title : String) (content : String)
  | report (title : String) (executiveSummary : String)
      (sections : List (String × String)) (conclusion : String)
  | complete (message : String)
  | error (message : String)

/-- A completion-service behavior: the outcome of the n-th completion call of
the run (in call order). -/
def Oracle : Type := Nat → Except String String

/-- answerFollowUpQuestions (source lines 280-294): one completion call per
question, strictly in order; a throw propagates.  Returns the next call index
and either the answers or the first failure's message. -/
def answerFollowUpQuestions (oracle : Oracle) :
    Nat → List Json → Nat × Except String (List String)
  | k, [] => (k, Except.ok [])
  | k, _q :: qs =>
    match oracle k with
    | Except.error e => (k + 1, Except.error e)
    | Except.ok a =>
      match answerFollowUpQuestions oracle (k + 1) qs with
      | (k', Except.error e) => (k', Except.error e)
      | (k', Except.ok as) => (k', Except.ok (a :: as))

/-- The qa events emitted after the answer stage: one per (question, answer)
pair, in question order (source lines 49-52). -/
def qaEvents (qs : List Json) (answers : List String) : List Event :=
  (qs.zip answers).map fun p => Event.qa p.1 p.2

/-- The section-by-section loop (source lines 131-165): for each section a
progress event at the running total, one completion call, a section event, the
increment, and a completed progress event.  Returns the emitted events, the
next call index, and either the failure or the final running total, the
accumulated previous content, and the (title, content) pairs. -/
def sectionLoop (oracle : Oracle) (total : Nat) (inc : ℚ) :
    List OutlineSection → Nat → Nat → ℚ → String → List (String × String) →
    List Event × Nat × Except String (ℚ × String × List (String × String))
  | [], _i, k, cur, prev, acc => ([], k, Except.ok (cur, prev, acc))
  | s :: rest, i, k, cur, prev, acc =>
    match oracle k with
    | Except.error e =>
      ([Event.progress ("Writing section " ++ Nat.repr (i + 1) ++ "/" ++
          Nat.repr total ++ ": " ++ s.title ++ "...") false "sections" cur],
       k + 1, Except.error e)
    | Except.ok content =>
      match sectionLoop oracle total inc rest (i + 1) (k + 1) (cur + inc)
          (prev ++ "\n\n## " ++ s.title ++ "\n\n" ++ content)
          (acc ++ [(s.title, content)]) with
      | (evs, k', r) =>
        (Event.progress ("Writing section " ++ Nat.repr (i + 1) ++ "/" ++
            Nat.repr total ++ ": " ++ s.title ++ "...") false "sections" cur ::
         Event.sectionEvent s.title content ::
         Event.progress ("Completed section " ++ Nat.repr (i + 1) ++ "/" ++
            Nat.repr total ++ ": " ++ s.title) true "sections" (cur + inc) ::
         evs, k', r)

/-- executeResearch: the fixed stage sequence with its emissions, in source
order.  Stages run left to right; the first failure ends the trace with the
single error event produced by the outer catch (source lines 219-222).  The
completion calls are numbered in order: 0 the question generation, 1..q the
answers, then research data, title, outline, one call per section, the
executive summary, and the conclusion. -/
def executeResearch (query : String) (oracle : Oracle) : List Event :=
  [Event.progress "Starting research process..." true "init" 0,
   Event.progress "Generating follow-up questions..." false "questions" 5] ++
  match oracle 0 with
  | Except.error e => [Event.error e]
  | Except.ok resp0 =>
    [Event.questions (parseQuestions query resp0),
     Event.progress "Follow-up questions generated" true "questions" 15,
     Event.progress "Answering follow-up questions..." false "answers" 15] ++
    match answerFollowUpQuestions oracle 1 (parseQuestions query resp0) with
    | (_, Except.error e) => [Event.error e]
    | (k1, Except.ok answers) =>
      qaEvents (parseQuestions query resp0) answers ++
      [Event.progress "All questions answered" true "answers" 30,
       Event.progress "Gathering research data with sources..." false "research_data" 30] ++
      match oracle k1 with
      | Except.error e => [Event.error e]
      | Except.ok _researchData =>
        [Event.progress "Research data gathered" true "research_data" 45,
         Event.progress "Generating report title..." false "title" 45] ++
        match oracle (k1 + 1) with
        | Except.error e => [Event.error e]
        | Except.ok reportTitle =>
          [Event.title reportTitle,
           Event.progress ("Report title generated: \"" ++ reportTitle ++ "\"")
             true "title" 50,
           Event.progress "Creating research outline..." false "outline" 50] ++
          match oracle (k1 + 2) with
          | Except.error e => [Event.error e]
          | Except.ok outlineText =>
            [Event.outline outlineText,
             Event.progress "Research outline created" true "outline" 55,
             Event.progress "Generating content section by section..." false "sections" 55] ++
            match sectionLoop oracle (parseOutline outlineText).length
                (35 / ((parseOutline outlineText).length : ℚ))
                (parseOutline outlineText) 0 (k1 + 3) 55 "" [] with
            | (evs, _, Except.error e) => evs ++ [Event.error e]
            | (evs, k2, Except.ok (_cur, _previousContent, contentSections)) =>
              evs ++
              [Event.progress "Generating executive summary..." false "summary" 90] ++
              match oracle k2 with
              | Except.error e => [Event.error e]
              | Except.ok executiveSummary =>
                [Event.progress "Executive summary completed" true "summary" 95,
                 Event.progress "Generating conclusion..." false "conclusion" 95] ++
                match oracle (k2 + 1) with
                | Except.error e => [Event.error e]
                | Except.ok conclusionText =>
                  [Event.progress "Conclusion completed" true "conclusion" 100,
                   Event.report reportTitle executiveSummary contentSections conclusionText,
                   Event.progress "Research report completed" true "complete" 100,
                   Event.complete ("Research report \"" ++ reportTitle ++
                     "\" has been successfully generated.")]

/-! ## The session registry
(src/server/controllers/researchController.ts): the state-relevant effects of
startResearch, streamResearch and processResearchQuery on the activeResearch
map.  serviceGen counts the ResearchService instances created for the entry
(each carries its own listener set); runsStarted counts the executeResearch
executions begun; observers counts the streaming attachments made. -/

/-- The in-memory record of one research session. -/
structure SessionRec where
  query : String
  modelType : String
  status : String
  serviceGen : Nat
  runsStarted : Nat
  observers : Nat

/-- The activeResearch map, as an association list keyed by queryId. -/
def Registry : Type := List (String × SessionRec)

/-- Replace the entry for a key, or append it. -/
def setEntry : Registry → String → SessionRec → Registry
  | [], k, v => [(k, v)]
  | (k', v') :: rest, k, v =>
    if k' = k then (k, v) :: rest else (k', v') :: setEntry rest k v

/-- startResearch (controller lines 20-82): creates one ResearchService, stores
the entry with status initializing, and does not start the pipeline. -/
def startResearch (reg : Registry) (queryId query modelType : String) : Registry :=
  setEntry reg queryId ⟨query, modelType, "initializing", 1, 0, 0⟩

/-- streamResearch (controller lines 84-249) followed by the
processResearchQuery it invokes (lines 258-270): a 404 when the id is unknown;
otherwise a fresh ResearchService replaces the entry's service, the new
observer's listeners attach to it, and processResearchQuery unconditionally
marks the session in progress and begins another executeResearch run. -/
def streamResearch (reg : Registry) (queryId : String) : Registry :=
  match reg.lookup queryId with
  | none => reg
  | some r =>
    setEntry reg queryId
      { r with serviceGen := r.serviceGen + 1, observers := r.observers + 1,
               status := "in_progress", runsStarted := r.runsStarted + 1 }

/-- The number of pipeline executions started for an id. -/
def runsOf (reg : Registry) (queryId : String) : Nat :=
  match reg.lookup queryId with
  | some r => r.runsStarted
  | none => 0

/-- The number of ResearchService instances created for an id. -/
def gensOf (reg : Registry) (queryId : String) : Nat :=
  match reg.lookup queryId with
  | some r => r.serviceGen
  | none => 0

/-! ## Trace observations used by the claims -/

/-- The numeric progress values carried by the progress events, in emission
order. -/
def progressValues (evs : List Event) : List ℚ :=
  evs.filterMap fun e =>
    match e with
    | Event.progress _ _ _ v => some v
    | _ => none

/-- Is an event an error event? -/
def isErrorEv : Event → Bool
  | Event.error _ => true
  | _ => false

/-- The number of error events in a trace. -/
def countErrors (evs : List Event) : Nat := evs.countP isErrorEv

/-- The last event of a trace. -/
def lastEv : List Event → Option Event
  | [] => none
  | [e] => some e
  | _ :: e :: rest => lastEv (e :: rest)

/-- Non-decreasing chain check: from a lower bound, confirm each value is at
least the previous one and return the last (the bound when the list is
empty). -/
def mono (lo : ℚ) : List ℚ → Option ℚ
  | [] => some lo
  | x :: xs => if lo ≤ x then mono x xs else none

/-- The section-loop progress pattern: starting total cur, then for each of n
sections the pair (running total before, running total after adding inc). -/
def secProgList : Nat → ℚ → ℚ → List ℚ
  | 0, _, _ => []
  | n + 1, cur, inc => cur :: (cur + inc) :: secProgList n (cur + inc) inc

/-- Events a successful section loop may emit (progress and section only). -/
def benignEv : Event → Bool
  | Event.progress _ _ _ _ => true
  | Event.sectionEvent _ _ => true
  | _ => false

/-- Does the trace contain a complete event with the given message? -/
def hasCompleteMsg (evs : List Event) (m : String) : Bool :=
  evs.any fun e =>
    match e with
    | Event.complete m' => m' = m
    | _ => false

/-- Is a loop result a success? -/
def isOkB : Except String (ℚ × String × List (String × String)) → Bool
  | Except.ok _ => true
  | Except.error _ => false

/-- The final running total of a successful loop result. -/
def okCur : Except String (ℚ × String × List (String × String)) → ℚ
  | Except.ok r => r.1
  | Except.error _ => 0

/-! ## Helper lemmas about the trace observations -/

@[simp] theorem progressValues_nil : progressValues [] = [] := rfl

@[simp] theorem progressValues_cons_progress (m : String) (b : Bool) (st : String) (v : ℚ)
    (l : List Event) :
    progressValues (Event.progress m b st v :: l) = v :: progressValues l := rfl

@[simp] theorem progressValues_cons_questions (qs : List Json) (l : List Event) :
    progressValues (Event.questions qs :: l) = progressValues l := rfl

@[simp] theorem progressValues_cons_qa (x : Json) (a : String) (l : List Event) :
    progressValues (Event.qa x a :: l) = progressValues l := rfl

@[simp] theorem progressValues_cons_title (t : String) (l : List Event) :
    progressValues (Event.title t :: l) = progressValues l := rfl

@[simp] theorem progressValues_cons_outline (o : String) (l : List Event) :
    progressValues (Event.outline o :: l) = progressValues l := rfl

@[simp] theorem progressValues_cons_section (t c : String) (l : List Event) :
    progressValues (Event.sectionEvent t c :: l) = progressValues l := rfl

@[simp] theorem progressValues_cons_report (t e : String) (s : List (String × String))
    (c : String) (l : List Event) :
    progressValues (Event.report t e s c :: l) = progressValues l := rfl

@[simp] theorem progressValues_cons_complete (m : String) (l : List Event) :
    progressValues (Event.complete m :: l) = progressValues l := rfl

@[simp] theorem progressValues_cons_error (m : String) (l : List Event) :
    progressValues (Event.error m :: l) = progressValues l := rfl

@[simp] theorem progressValues_append (a b : List Event) :
    progressValues (a ++ b) = progressValues a ++ progressValues b := by
  simp [progressValues, List.filterMap_append]

@[simp] theorem countErrors_nil : countErrors [] = 0 := rfl

@[simp] theorem countErrors_cons (e : Event) (l : List Event) :
    countErrors (e :: l) = countErrors l + (if isErrorEv e then 1 else 0) := by
  simp [countErrors, List.countP_cons]

@[simp] theorem countErrors_append (a b : List Event) :
    countErrors (a ++ b) = countErrors a + countErrors b := by
  simp [countErrors, List.countP_append]

@[simp] theorem isErrorEv_progress (m : String) (b : Bool) (st : String) (v : ℚ) :
    isErrorEv (Event.progress m b st v) = false := rfl
@[simp] theorem isErrorEv_questions (qs : List Json) : isErrorEv (Event.questions qs) = false := rfl
@[simp] theorem isErrorEv_qa (x : Json) (a : String) : isErrorEv (Event.qa x a) = false := rfl
@[simp] theorem isErrorEv_title (t : String) : isErrorEv (Event.title t) = false := rfl
@[simp] theorem isErrorEv_outline (o : String) : isErrorEv (Event.outline o) = false := rfl
@[simp] theorem isErrorEv_section (t c : String) : isErrorEv (Event.sectionEvent t c) = false := rfl
@[simp] theorem isErrorEv_report (t e : String) (s : List (String × String)) (c : String) :
    isErrorEv (Event.report t e s c) = false := rfl
@[simp] theorem isErrorEv_complete (m : String) : isErrorEv (Event.complete m) = false := rfl
@[simp] theorem isErrorEv_error (m : String) : isErrorEv (Event.error m) = true := rfl

@[simp] theorem lastEv_append_cons (l : List Event) (x : Event) (l' : List Event) :
    lastEv (l ++ (x :: l')) = lastEv (x :: l') := by
  induction l with
  | nil => rfl
  | cons a rest ih =>
    cases rest with
    | nil => simp [lastEv]
    | cons b rest' => simpa [lastEv] using ih

theorem mono_append (xs ys : List ℚ) (lo : ℚ) :
    mono lo (xs ++ ys) = (mono lo xs).bind fun m => mono m ys := by
  induction xs generalizing lo with
  | nil => simp [mono]
  | cons x xs ih =>
    simp only [List.cons_append, mono]
    split
    case isTrue h => exact ih x
    case isFalse h => rfl

/-! ## qaEvents lemmas -/

theorem qaEvents_mem (qs : List Json) (as : List String) (e : Event) :
    e ∈ qaEvents qs as → ∃ x y, e = Event.qa x y ∧ x ∈ qs := by
  intro h
  simp only [qaEvents, List.mem_map] at h
  obtain ⟨p, hp, rfl⟩ := h
  exact ⟨p.1, p.2, rfl, (List.of_mem_zip hp).1⟩

@[simp] theorem progressValues_qaEvents (qs : List Json) (as : List String) :
    progressValues (qaEvents qs as) = [] := by
  simp [qaEvents, progressValues, List.filterMap_map]

@[simp] theorem countErrors_qaEvents (qs : List Json) (as : List String) :
    countErrors (qaEvents qs as) = 0 := by
  simp [qaEvents, countErrors, List.countP_eq_zero]

theorem complete_not_mem_qaEvents (qs : List Json) (as : List String) (m : String) :
    Event.complete m ∉ qaEvents qs as := by
  intro h
  obtain ⟨x, y, hxy, -⟩ := qaEvents_mem qs as _ h
  exact absurd hxy (by simp)

@[simp] theorem lastEv_cons_append_cons (x : Event) (l : List Event) (y : Event)
    (l' : List Event) :
    lastEv (x :: (l ++ (y :: l'))) = lastEv (y :: l') := by
  rw [show x :: (l ++ (y :: l')) = (x :: l) ++ (y :: l') from rfl, lastEv_append_cons]

/-! ## sectionLoop lemmas -/

theorem sectionLoop_benign (oracle : Oracle) (total : Nat) (inc : ℚ) :
    ∀ (secs : List OutlineSection) (i k : Nat) (cur : ℚ) (prev : String)
      (acc : List (String × String)),
      ∀ e ∈ (sectionLoop oracle total inc secs i k cur prev acc).1, benignEv e = true := by
  intro secs
  induction secs with
  | nil => intro i k cur prev acc e he; simp [sectionLoop] at he
  | cons s rest ih =>
    intro i k cur prev acc e he
    rw [sectionLoop] at he
    cases h : oracle k with
    | error msg =>
      rw [h] at he
      simp at he
      subst he
      rfl
    | ok content =>
      rw [h] at he
      dsimp only at he
      rcases hrec : sectionLoop oracle total inc rest (i + 1) (k + 1) (cur + inc)
          (prev ++ "\n\n## " ++ s.title ++ "\n\n" ++ content)
          (acc ++ [(s.title, content)]) with ⟨evs, k', r⟩
      rw [hrec] at he
      simp only [List.mem_cons] at he
      rcases he with rfl | rfl | rfl | he
      · rfl
      · rfl
      · rfl
      · have := ih (i + 1) (k + 1) (cur + inc) _ _ e (by rw [hrec]; exact he)
        exact this

theorem countErrors_sectionLoop (oracle : Oracle) (total : Nat) (inc : ℚ)
    (secs : List OutlineSection) (i k : Nat) (cur : ℚ) (prev : String)
    (acc : List (String × String)) :
    countErrors (sectionLoop oracle total inc secs i k cur prev acc).1 = 0 := by
  rw [countErrors, List.countP_eq_zero]
  intro e he
  have := sectionLoop_benign oracle total inc secs i k cur prev acc e he
  cases e <;> simp_all [benignEv, isErrorEv]

theorem complete_not_mem_sectionLoop (oracle : Oracle) (total : Nat) (inc : ℚ)
    (secs : List OutlineSection) (i k : Nat) (cur : ℚ) (prev : String)
    (acc : List (String × String)) (m : String) :
    Event.complete m ∉ (sectionLoop oracle total inc secs i k cur prev acc).1 := by
  intro h
  have := sectionLoop_benign oracle total inc secs i k cur prev acc _ h
  simp [benignEv] at this

theorem qa_not_mem_sectionLoop (oracle : Oracle) (total : Nat) (inc : ℚ)
    (secs : List OutlineSection) (i k : Nat) (cur : ℚ) (prev : String)
    (acc : List (String × String)) (x : Json) (y : String) :
    Event.qa x y ∉ (sectionLoop oracle total inc secs i k cur prev acc).1 := by
  intro h
  have := sectionLoop_benign oracle total inc secs i k cur prev acc _ h
  simp [benignEv] at this

/-- A successful section loop emits exactly the secProgList progress pattern
and returns the start plus one increment per section. -/
theorem sectionLoop_ok_spec (oracle : Oracle) (total : Nat) (inc : ℚ) :
    ∀ (secs : List OutlineSection) (i k : Nat) (cur : ℚ) (prev : String)
      (acc : List (String × String)) (evs : List Event) (k' : Nat)
      (res : ℚ × String × List (String × String)),
      sectionLoop oracle total inc secs i k cur prev acc = (evs, k', Except.ok res) →
      progressValues evs = secProgList secs.length cur inc ∧
        res.1 = cur + secs.length * inc := by
  intro secs
  induction secs with
  | nil =>
    intro i k cur prev acc evs k' res h
    rw [sectionLoop] at h
    injection h with h1 h2
    injection h2 with h2 h3
    injection h3 with h3
    subst h1
    subst h3
    simp [secProgList]
  | cons s rest ih =>
    intro i k cur prev acc evs k' res h
    rw [sectionLoop] at h
    cases ho : oracle k with
    | error msg => rw [ho] at h; injection h with h1 h2; injection h2 with h2 h3; cases h3
    | ok content =>
      rw [ho] at h
      dsimp only at h
      rcases hrec : sectionLoop oracle total inc rest (i + 1) (k + 1) (cur + inc)
          (prev ++ "\n\n## " ++ s.title ++ "\n\n" ++ content)
          (acc ++ [(s.title, content)]) with ⟨evs0, k0, r0⟩
      rw [hrec] at h
      injection h with h1 h2
      injection h2 with h2 h3
      subst h1
      subst h2
      subst h3
      have hih := ih (i + 1) (k + 1) (cur + inc) _ _ evs0 k0 res hrec
      refine ⟨?_, ?_⟩
      · simp [secProgList, hih.1]
      · rw [hih.2]
        simp only [List.length_cons]
        push_cast
        ring

/-! ## Chain arithmetic -/

theorem mono_secProgList (inc : ℚ) (hinc : 0 ≤ inc) :
    ∀ (n : Nat) (cur : ℚ), mono cur (secProgList n cur inc) = some (cur + n * inc) := by
  intro n
  induction n with
  | zero => intro cur; simp [secProgList, mono]
  | succ n ih =>
    intro cur
    have h1 : cur ≤ cur + inc := by linarith
    simp only [secProgList, mono, if_pos (le_refl cur), if_pos h1, ih (cur + inc)]
    congr 1
    push_cast
    ring

theorem secProgList_le (inc : ℚ) (hinc : 0 ≤ inc) :
    ∀ (n : Nat) (cur : ℚ) (v : ℚ), v ∈ secProgList n cur inc → v ≤ cur + n * inc := by
  intro n
  induction n with
  | zero => intro cur v h; simp [secProgList] at h
  | succ n ih =>
    intro cur v h
    have hbound : (0:ℚ) ≤ n * inc := by positivity
    simp only [secProgList, List.mem_cons] at h
    rcases h with rfl | rfl | h
    · push_cast; nlinarith
    · push_cast; nlinarith
    · have := ih (cur + inc) v h
      push_cast at this ⊢
      linarith

theorem nat_mul_div35_le (n : Nat) : (n : ℚ) * (35 / n) ≤ 35 := by
  cases n with
  | zero => norm_num
  | succ m =>
    have hne : ((m + 1 : Nat) : ℚ) ≠ 0 := by positivity
    rw [mul_div_cancel₀ _ hne]

/-! ## answerFollowUpQuestions failure lemma -/

theorem answerFollowUpQuestions_fail (oracle : Oracle) :
    ∀ (i : Nat) (qs : List Json) (k : Nat) (m : String),
      i < qs.length →
      (∀ j, j < i → ∃ s, oracle (k + j) = Except.ok s) →
      oracle (k + i) = Except.error m →
      answerFollowUpQuestions oracle k qs = (k + i + 1, Except.error m) := by
  intro i
  induction i with
  | zero =>
    intro qs k m hlen hok hfail
    cases qs with
    | nil => simp at hlen
    | cons x rest =>
      rw [answerFollowUpQuestions]
      rw [show k + 0 = k from rfl] at hfail
      rw [hfail]
  | succ i ih =>
    intro qs k m hlen hok hfail
    cases qs with
    | nil => simp at hlen
    | cons x rest =>
      obtain ⟨s, hs⟩ := hok 0 (Nat.succ_pos i)
      rw [answerFollowUpQuestions]
      rw [show k + 0 = k from rfl] at hs
      rw [hs]
      have hrec : answerFollowUpQuestions oracle (k + 1) rest = (k + 1 + i + 1, Except.error m) := by
        refine ih rest (k + 1) m (by simpa using hlen) ?_ ?_
        · intro j hj
          obtain ⟨t, ht⟩ := hok (j + 1) (by omega)
          exact ⟨t, by rw [show k + 1 + j = k + (j + 1) by omega]; exact ht⟩
        · rw [show k + 1 + i = k + (i + 1) by omega]; exact hfail
      rw [hrec]
      have : k + 1 + i + 1 = k + (i + 1) + 1 := by omega
      rw [this]

/-- Master characterization of a pipeline trace: every run either ends in a
single error event preceded by no error or complete event, or ends in a
complete event with no error event and a progress sequence that climbs from 0
to exactly 100; and every qa event's question comes from the parsed question
list of the first call's response. -/
theorem traceShape (q : String) (oracle : Oracle) :
    ((countErrors (executeResearch q oracle) = 1 ∧
      (∃ m, lastEv (executeResearch q oracle) = some (Event.error m)) ∧
      (∀ m, Event.complete m ∉ executeResearch q oracle)) ∨
     (countErrors (executeResearch q oracle) = 0 ∧
      (∃ m, lastEv (executeResearch q oracle) = some (Event.complete m)) ∧
      mono 0 (progressValues (executeResearch q oracle)) = some 100)) ∧
    (∀ x y, Event.qa x y ∈ executeResearch q oracle →
      ∃ r0, oracle 0 = Except.ok r0 ∧ x ∈ parseQuestions q r0) := by
  simp only [executeResearch]
  cases h0 : oracle 0 with
  | error e =>
    refine ⟨Or.inl ⟨rfl, ⟨e, rfl⟩, ?_⟩, ?_⟩
    · intro m hm; simp at hm
    · intro x y hxy; simp at hxy
  | ok resp0 =>
    dsimp only
    rcases hA : answerFollowUpQuestions oracle 1 (parseQuestions q resp0) with ⟨kA, e | answers⟩
    · dsimp only
      refine ⟨Or.inl ⟨rfl, ⟨e, rfl⟩, ?_⟩, ?_⟩
      · intro m hm; simp at hm
      · intro x y hxy; simp at hxy
    · dsimp only
      cases h1 : oracle kA with
      | error e =>
        refine ⟨Or.inl ⟨?_, ⟨e, ?_⟩, ?_⟩, ?_⟩
        · simp
        · simp [lastEv]
        · intro m hm
          simp [complete_not_mem_qaEvents] at hm
        · intro x y hxy
          simp at hxy
          obtain ⟨_, _, hxy, hq⟩ := qaEvents_mem _ _ _ hxy
          cases hxy
          exact ⟨resp0, rfl, hq⟩
      | ok rd =>
        dsimp only
        cases h2 : oracle (kA + 1) with
        | error e =>
          refine ⟨Or.inl ⟨?_, ⟨e, ?_⟩, ?_⟩, ?_⟩
          · simp
          · simp [lastEv]
          · intro m hm
            simp [complete_not_mem_qaEvents] at hm
          · intro x y hxy
            simp at hxy
            obtain ⟨_, _, hxy, hq⟩ := qaEvents_mem _ _ _ hxy
            cases hxy
            exact ⟨resp0, rfl, hq⟩
        | ok rt =>
          dsimp only
          cases h3 : oracle (kA + 2) with
          | error e =>
            refine ⟨Or.inl ⟨?_, ⟨e, ?_⟩, ?_⟩, ?_⟩
            · simp
            · simp [lastEv]
            · intro m hm
              simp [complete_not_mem_qaEvents] at hm
            · intro x y hxy
              simp at hxy
              obtain ⟨_, _, hxy, hq⟩ := qaEvents_mem _ _ _ hxy
              cases hxy
              exact ⟨resp0, rfl, hq⟩
          | ok ot =>
            dsimp only
            rcases hrec : sectionLoop oracle (parseOutline ot).length
                (35 / ((parseOutline ot).length : ℚ)) (parseOutline ot) 0 (kA + 3) 55 "" []
              with ⟨evs, k2, r | res⟩
            · dsimp only
              have hce : countErrors evs = 0 := by
                have := countErrors_sectionLoop oracle (parseOutline ot).length
                  (35 / ((parseOutline ot).length : ℚ)) (parseOutline ot) 0 (kA + 3) 55 "" []
                rw [hrec] at this; exact this
              have hcm : ∀ m, Event.complete m ∉ evs := by
                intro m
                have := complete_not_mem_sectionLoop oracle (parseOutline ot).length
                  (35 / ((parseOutline ot).length : ℚ)) (parseOutline ot) 0 (kA + 3) 55 "" [] m
                rw [hrec] at this; exact this
              have hqm : ∀ x y, Event.qa x y ∉ evs := by
                intro x y
                have := qa_not_mem_sectionLoop oracle (parseOutline ot).length
                  (35 / ((parseOutline ot).length : ℚ)) (parseOutline ot) 0 (kA + 3) 55 "" [] x y
                rw [hrec] at this; exact this
              refine ⟨Or.inl ⟨?_, ⟨r, ?_⟩, ?_⟩, ?_⟩
              · simp [hce]
              · simp [lastEv]
              · intro m hm
                simp [complete_not_mem_qaEvents, hcm] at hm
              · intro x y hxy
                simp [hqm] at hxy
                obtain ⟨_, _, hxy, hq⟩ := qaEvents_mem _ _ _ hxy
                cases hxy
                exact ⟨resp0, rfl, hq⟩
            · rcases res with ⟨rcur, rprev, racc⟩
              dsimp only
              have hce : countErrors evs = 0 := by
                have := countErrors_sectionLoop oracle (parseOutline ot).length
                  (35 / ((parseOutline ot).length : ℚ)) (parseOutline ot) 0 (kA + 3) 55 "" []
                rw [hrec] at this; exact this
              have hcm : ∀ m, Event.complete m ∉ evs := by
                intro m
                have := complete_not_mem_sectionLoop oracle (parseOutline ot).length
                  (35 / ((parseOutline ot).length : ℚ)) (parseOutline ot) 0 (kA + 3) 55 "" [] m
                rw [hrec] at this; exact this
              have hqm : ∀ x y, Event.qa x y ∉ evs := by
                intro x y
                have := qa_not_mem_sectionLoop oracle (parseOutline ot).length
                  (35 / ((parseOutline ot).length : ℚ)) (parseOutline ot) 0 (kA + 3) 55 "" [] x y
                rw [hrec] at this; exact this
              cases h4 : oracle k2 with
              | error e =>
                refine ⟨Or.inl ⟨?_, ⟨e, ?_⟩, ?_⟩, ?_⟩
                · simp [hce]
                · simp [lastEv]
                · intro m hm
                  simp [complete_not_mem_qaEvents, hcm] at hm
                · intro x y hxy
                  simp [hqm] at hxy
                  obtain ⟨_, _, hxy, hq⟩ := qaEvents_mem _ _ _ hxy
                  cases hxy
                  exact ⟨resp0, rfl, hq⟩
              | ok es =>
                dsimp only
                cases h5 : oracle (k2 + 1) with
                | error e =>
                  refine ⟨Or.inl ⟨?_, ⟨e, ?_⟩, ?_⟩, ?_⟩
                  · simp [hce]
                  · simp [lastEv]
                  · intro m hm
                    simp [complete_not_mem_qaEvents, hcm] at hm
                  · intro x y hxy
                    simp [hqm] at hxy
                    obtain ⟨_, _, hxy, hq⟩ := qaEvents_mem _ _ _ hxy
                    cases hxy
                    exact ⟨resp0, rfl, hq⟩
                | ok ct =>
                  dsimp only
                  obtain ⟨hpv, hcur⟩ := sectionLoop_ok_spec oracle (parseOutline ot).length
                    (35 / ((parseOutline ot).length : ℚ)) (parseOutline ot) 0 (kA + 3) 55 "" []
                    evs k2 ⟨rcur, rprev, racc⟩ hrec
                  refine ⟨Or.inr ⟨?_, ⟨"Research report \"" ++ rt ++
                      "\" has been successfully generated.", ?_⟩, ?_⟩, ?_⟩
                  · simp [hce]
                  · simp [lastEv]
                  · have hinc : (0:ℚ) ≤ 35 / ((parseOutline ot).length : ℚ) := by positivity
                    have hm1 := mono_secProgList _ hinc (parseOutline ot).length 55
                    have hle : (55:ℚ) + ((parseOutline ot).length : ℚ) *
                        (35 / ((parseOutline ot).length : ℚ)) ≤ 90 := by
                      have := nat_mul_div35_le (parseOutline ot).length
                      linarith
                    simp only [progressValues_append, progressValues_qaEvents,
                      progressValues_cons_progress, progressValues_cons_questions,
                      progressValues_cons_qa, progressValues_cons_title,
                      progressValues_cons_outline, progressValues_cons_section,
                      progressValues_cons_report, progressValues_cons_complete,
                      progressValues_cons_error, progressValues_nil,
                      List.cons_append, List.nil_append, List.append_assoc, hpv]
                    norm_num [mono, mono_append, hm1, hle]
                  · intro x y hxy
                    simp [hqm] at hxy
                    obtain ⟨_, _, hxy, hq⟩ := qaEvents_mem _ _ _ hxy
                    cases hxy
                    exact ⟨resp0, rfl, hq⟩

/-! ## Bridging helpers for witnesses -/

theorem str_append3_ne_empty (a q b : String) (ha : a.data ≠ []) : a ++ q ++ b ≠ "" := by
  intro he
  have h2 : (a ++ q ++ b).data = [] := congrArg String.data he
  have h3 : (a ++ q ++ b).data = a.data ++ q.data ++ b.data := rfl
  rw [h3] at h2
  simp only [List.append_eq_nil] at h2
  exact ha h2.1.1

theorem hasCompleteMsg_mem : ∀ (evs : List Event) (m : String),
    hasCompleteMsg evs m = true → Event.complete m ∈ evs := by
  intro evs m h
  induction evs with
  | nil => simp [hasCompleteMsg] at h
  | cons e rest ih =>
    simp only [hasCompleteMsg, List.any_cons, Bool.or_eq_true] at h
    rcases h with h | h
    · cases e <;> simp_all
    · exact List.mem_cons_of_mem _ (ih h)

theorem lookup_setEntry (reg : Registry) (k : String) (v : SessionRec) :
    (setEntry reg k v).lookup k = some v := by
  induction reg with
  | nil => simp [setEntry, List.lookup]
  | cons p rest ih =>
    rcases p with ⟨k', v'⟩
    by_cases h : k' = k
    · subst h
      simp [setEntry, List.lookup]
    · have h2 : (k == k') = false := by
        simp [beq_iff_eq]
        exact fun he => h he.symm
      simp [setEntry, h, List.lookup, h2, ih]

/-! ## The claims -/

/-- Claim C1 (counterexample): the outline parser does not guarantee a
non-empty result — the default list is substituted before the
executive-summary/conclusion filter runs, so an outline whose only section is
titled Conclusion parses to zero sections after filtering yet the 3-entry
default is not returned. -/
theorem parseOutline_conclusion_only_empty :
    parseOutline "## Conclusion" = [] ∧
    parseOutline "## Conclusion" ≠ defaultSections := by
  refine ⟨rfl, ?_⟩
  decide

/-- Claim C1 (amended): the fixed 3-entry default section list is substituted
exactly when header parsing itself yields zero sections (before the
executive-summary/conclusion filter); in that case parseOutline returns
precisely the three defaults (Main Findings, Analysis, Discussion), which all
survive the filter. -/
theorem parseOutline_default_on_no_headers (s : String)
    (h : parseOutlineLines (jsLines s) none = []) :
    parseOutline s = defaultSections := by
  simp only [parseOutline, h]
  rfl

theorem parseOutline_default_on_no_headers_witness :
    parseOutlineLines (jsLines "") none = [] ∧ parseOutline "" = defaultSections :=
  ⟨rfl, parseOutline_default_on_no_headers "" rfl⟩

/-- Claim C2 (counterexample): attaching a second observer to a running
session is not idempotent — each streamResearch call for a known session id
unconditionally starts another pipeline execution, so after two attaches two
executeResearch runs have been started for the same identifier, contradicting
the at-most-one-execution discipline. -/
theorem streamResearch_restart_counterexample :
    runsOf (streamResearch (streamResearch
        (startResearch [] "q1" "climate change" "combined") "q1") "q1") "q1" = 2 ∧
    ¬ runsOf (streamResearch (streamResearch
        (startResearch [] "q1" "climate change" "combined") "q1") "q1") "q1" ≤ 1 := by
  decide

/-- Claim C2 (amended): every streamResearch call on a known session replaces
the session's service with a fresh ResearchService instance (whose listeners
serve only the newly attached observer) and starts one additional pipeline
execution; it does not reuse the running execution. -/
theorem streamResearch_attach_starts_new_run (reg : Registry) (qid : String)
    (r : SessionRec) (h : reg.lookup qid = some r) :
    runsOf (streamResearch reg qid) qid = r.runsStarted + 1 ∧
    gensOf (streamResearch reg qid) qid = r.serviceGen + 1 := by
  simp only [streamResearch, h]
  simp [runsOf, gensOf, lookup_setEntry]

theorem streamResearch_attach_starts_new_run_witness :
    (startResearch [] "q1" "climate" "combined").lookup "q1" =
      some ⟨"climate", "combined", "initializing", 1, 0, 0⟩ ∧
    runsOf (streamResearch (startResearch [] "q1" "climate" "combined") "q1") "q1" = 0 + 1 :=
  ⟨rfl, (streamResearch_attach_starts_new_run (startResearch [] "q1" "climate" "combined")
      "q1" ⟨"climate", "combined", "initializing", 1, 0, 0⟩ rfl).1⟩

/-- Claim C3: for every run of executeResearch that emits the complete event,
the numeric progress values of the emitted progress events, in emission order,
form a non-decreasing sequence ending at exactly 100. -/
theorem executeResearch_progress_monotone (q : String) (oracle : Oracle) (m : String)
    (hc : Event.complete m ∈ executeResearch q oracle) :
    mono 0 (progressValues (executeResearch q oracle)) = some 100 := by
  rcases (traceShape q oracle).1 with ⟨-, -, hnc⟩ | ⟨-, -, hm⟩
  · exact absurd hc (hnc m)
  · exact hm

theorem executeResearch_progress_monotone_witness :
    Event.complete "Research report \"[]\" has been successfully generated." ∈
      executeResearch "q" (fun _ => Except.ok "[]") ∧
    mono 0 (progressValues (executeResearch "q" (fun _ => Except.ok "[]"))) = some 100 := by
  have hmem : Event.complete "Research report \"[]\" has been successfully generated." ∈
      executeResearch "q" (fun _ => Except.ok "[]") :=
    hasCompleteMsg_mem _ _ (by decide)
  exact ⟨hmem, executeResearch_progress_monotone _ _ _ hmem⟩

/-- Claim C4: when a completion call of the answer-question stage fails, the
run emits no title, outline, section, or report event at all, retries nothing,
and ends with exactly one error event carrying that failure's message. -/
theorem answer_failure_aborts (q : String) (oracle : Oracle) (r0 : String) (i : Nat)
    (m : String)
    (h0 : oracle 0 = Except.ok r0)
    (hi : i < (parseQuestions q r0).length)
    (hok : ∀ j, j < i → ∃ s, oracle (1 + j) = Except.ok s)
    (hfail : oracle (1 + i) = Except.error m) :
    countErrors (executeResearch q oracle) = 1 ∧
    lastEv (executeResearch q oracle) = some (Event.error m) ∧
    (∀ t, Event.title t ∉ executeResearch q oracle) ∧
    (∀ o, Event.outline o ∉ executeResearch q oracle) ∧
    (∀ t c, Event.sectionEvent t c ∉ executeResearch q oracle) ∧
    (∀ t e s c, Event.report t e s c ∉ executeResearch q oracle) := by
  have hA := answerFollowUpQuestions_fail oracle i (parseQuestions q r0) 1 m hi hok hfail
  simp only [executeResearch, h0, hA]
  refine ⟨rfl, rfl, ?_, ?_, ?_, ?_⟩ <;> intros <;> simp

theorem answer_failure_aborts_witness :
    countErrors (executeResearch "x"
      (fun k => if k = 0 then Except.ok "[\"Q1?\"]" else Except.error "boom")) = 1 ∧
    lastEv (executeResearch "x"
      (fun k => if k = 0 then Except.ok "[\"Q1?\"]" else Except.error "boom")) =
      some (Event.error "boom") := by
  have h := answer_failure_aborts "x"
    (fun k => if k = 0 then Except.ok "[\"Q1?\"]" else Except.error "boom")
    "[\"Q1?\"]" 0 "boom" rfl (by decide)
    (fun j hj => absurd hj (Nat.not_lt_zero j)) rfl
  exact ⟨h.1, h.2.1⟩

/-- Claim C5: whenever the whole question-stage response parses as a JSON
array, the stage returns the first five elements of that array in order; on
the six-question example it yields exactly the first five; and on every input
the result has at most five elements. -/
theorem parseQuestions_take_five :
    (∀ q r xs, jsonParse r = some (Json.arr xs) → parseQuestions q r = xs.take 5) ∧
    (∀ q, parseQuestions q "[\"A?\",\"B?\",\"C?\",\"D?\",\"E?\",\"F?\"]" =
      [Json.str "A?", Json.str "B?", Json.str "C?", Json.str "D?", Json.str "E?"]) ∧
    (∀ q r, (parseQuestions q r).length ≤ 5) := by
  have hfb : ∀ q r, (fallbackQuestions q r).length ≤ 5 := by
    intro q r
    by_cases h : (questionsFromLines r).isEmpty
    · simp [fallbackQuestions, h, defaultQuestions]
    · simp [fallbackQuestions, h, List.length_take]
  refine ⟨?_, ?_, ?_⟩
  · intro q r xs h
    simp only [parseQuestions, h]
  · intro q
    rfl
  · intro q r
    unfold parseQuestions
    split
    · simp [List.length_take]
    · exact hfb q r
    · split
      · split
        · simp [List.length_take]
        · exact hfb q r
      · exact hfb q r

theorem parseQuestions_take_five_witness :
    jsonParse "[\"A?\"]" = some (Json.arr [Json.str "A?"]) ∧
    parseQuestions "q" "[\"A?\"]" = [Json.str "A?"] :=
  ⟨rfl, (parseQuestions_take_five.1 "q" "[\"A?\"]" [Json.str "A?"] rfl)⟩

/-- Claim C6: on a response with no parseable JSON array (neither whole nor as
the first-bracket-to-last-bracket substring) and no numbered lines, the stage
synthesizes exactly the five deterministic template questions, each non-empty
and containing the query text as a substring. -/
theorem parseQuestions_default_fallback (q r : String) (_hq : q ≠ "")
    (h1 : ∀ xs, jsonParse r ≠ some (Json.arr xs))
    (h2 : ∀ sub xs, extractCandidate r = some sub → jsonParse sub ≠ some (Json.arr xs))
    (h3 : questionsFromLines r = []) :
    parseQuestions q r = defaultQuestions q ∧
    (parseQuestions q r).length = 5 ∧
    (∀ e ∈ parseQuestions q r, ∃ s, e = Json.str s ∧ s ≠ "" ∧ ∃ a b, s = a ++ q ++ b) := by
  have hfb : fallbackQuestions q r = defaultQuestions q := by
    unfold fallbackQuestions
    rw [h3]
    rfl
  have hpq : parseQuestions q r = defaultQuestions q := by
    rcases hj : jsonParse r with - | v
    · rcases he : extractCandidate r with - | sub
      · simp only [parseQuestions, hj, he]
        exact hfb
      · rcases hs : jsonParse sub with - | w
        · simp only [parseQuestions, hj, he, hs]
          exact hfb
        · cases w with
          | arr xs => exact absurd hs (h2 sub xs he)
          | null => simp only [parseQuestions, hj, he, hs]; exact hfb
          | bool b => simp only [parseQuestions, hj, he, hs]; exact hfb
          | num l => simp only [parseQuestions, hj, he, hs]; exact hfb
          | str s => simp only [parseQuestions, hj, he, hs]; exact hfb
          | obj fs => simp only [parseQuestions, hj, he, hs]; exact hfb
    · cases v with
      | arr xs => exact absurd hj (h1 xs)
      | null => simp only [parseQuestions, hj]; exact hfb
      | bool b => simp only [parseQuestions, hj]; exact hfb
      | num l => simp only [parseQuestions, hj]; exact hfb
      | str s => simp only [parseQuestions, hj]; exact hfb
      | obj fs => simp only [parseQuestions, hj]; exact hfb
  refine ⟨hpq, by rw [hpq]; rfl, ?_⟩
  rw [hpq]
  intro e he
  simp only [defaultQuestions, List.mem_cons, List.not_mem_nil, or_false] at he
  rcases he with rfl | rfl | rfl | rfl | rfl
  · exact ⟨_, rfl, str_append3_ne_empty _ q _ (by decide),
      "What are the key aspects of ", "?", rfl⟩
  · exact ⟨_, rfl, str_append3_ne_empty _ q _ (by decide),
      "What are the main challenges regarding ", "?", rfl⟩
  · exact ⟨_, rfl, str_append3_ne_empty _ q _ (by decide),
      "What are some recent developments in ", "?", rfl⟩
  · exact ⟨_, rfl, str_append3_ne_empty _ q _ (by decide),
      "How does ", " impact various stakeholders?", rfl⟩
  · exact ⟨_, rfl, str_append3_ne_empty _ q _ (by decide),
      "What future trends are expected for ", "?", rfl⟩

theorem parseQuestions_default_fallback_witness :
    parseQuestions "climate" "no structure here" = defaultQuestions "climate" ∧
    (parseQuestions "climate" "no structure here").length = 5 := by
  have h := parseQuestions_default_fallback "climate" "no structure here"
    (by decide)
    (fun xs h => by rw [show jsonParse "no structure here" = none from rfl] at h; cases h)
    (fun sub xs he => by rw [show extractCandidate "no structure here" = none from rfl] at he; cases he)
    rfl
  exact ⟨h.1, h.2.1⟩

/-- Claim C7: the outline parser treats level-2 markdown headers as section
boundaries, space-joins following content lines into the description, folds
level-3 headers into the parent's description, filters
executive-summary/conclusion titles, and discards lines before the first
recognized header: the worked example yields exactly the Intro and Methods
sections with Methods described by the folded Sub header and the content line,
and prepending stray lines before the first header changes nothing. -/
theorem parseOutline_example :
    parseOutline "## Intro\ntext1\n## Methods\n### Sub\nmore text\n## Conclusion\nwrap-up" =
      [⟨"Intro", 1, "text1"⟩, ⟨"Methods", 1, "Sub more text"⟩] ∧
    parseOutline ("preamble line\nstray note\n" ++
        "## Intro\ntext1\n## Methods\n### Sub\nmore text\n## Conclusion\nwrap-up") =
      [⟨"Intro", 1, "text1"⟩, ⟨"Methods", 1, "Sub more text"⟩] :=
  ⟨rfl, rfl⟩

/-- Claim C8: a successful section loop over n sections (n positive) starting
from a running total of 55 with increment 35 / n emits progress values that
start at 55, step by exactly the increment after each section, never exceed
90, and end with a final running total of exactly 90; for n = 4 the increment
is 8.75. -/
theorem sectionLoop_progress_spec (oracle : Oracle) (secs : List OutlineSection)
    (n k : Nat) (hn : secs.length = n) (hpos : 0 < n)
    (hok : isOkB (sectionLoop oracle n (35 / (n : ℚ)) secs 0 k 55 "" []).2.2 = true) :
    progressValues (sectionLoop oracle n (35 / (n : ℚ)) secs 0 k 55 "" []).1 =
      secProgList n 55 (35 / (n : ℚ)) ∧
    (progressValues (sectionLoop oracle n (35 / (n : ℚ)) secs 0 k 55 "" []).1).head? =
      some 55 ∧
    okCur (sectionLoop oracle n (35 / (n : ℚ)) secs 0 k 55 "" []).2.2 = 90 ∧
    (∀ v ∈ progressValues (sectionLoop oracle n (35 / (n : ℚ)) secs 0 k 55 "" []).1,
      v ≤ 90) ∧
    (35 : ℚ) / 4 = 8.75 := by
  subst hn
  rcases hl : sectionLoop oracle secs.length (35 / (secs.length : ℚ)) secs 0 k 55 "" []
    with ⟨evs, k2, r⟩
  cases r with
  | error e => rw [hl] at hok; simp [isOkB] at hok
  | ok res =>
    obtain ⟨hpv, hcur⟩ := sectionLoop_ok_spec oracle secs.length (35 / (secs.length : ℚ))
      secs 0 k 55 "" [] evs k2 res hl
    have hne : ((secs.length : ℚ)) ≠ 0 := by
      exact_mod_cast Nat.pos_iff_ne_zero.mp hpos
    have h90 : (55 : ℚ) + (secs.length : ℚ) * (35 / (secs.length : ℚ)) = 90 := by
      rw [mul_div_cancel₀ _ hne]
      norm_num
    dsimp only
    refine ⟨hpv, ?_, ?_, ?_, by norm_num⟩
    · rw [hpv]
      rcases hlen : secs.length with - | m
      · rw [hlen] at hpos; exact absurd hpos (by simp)
      · simp [secProgList]
    · simp only [okCur]
      rw [hcur, h90]
    · intro v hv
      rw [hpv] at hv
      have hinc : (0 : ℚ) ≤ 35 / (secs.length : ℚ) := by positivity
      have := secProgList_le _ hinc secs.length 55 v hv
      rw [h90] at this
      exact this

theorem sectionLoop_progress_spec_witness :
    okCur (sectionLoop (fun _ => Except.ok "c") 4 ((35 : ℚ) / 4)
        [⟨"A", 1, ""⟩, ⟨"B", 1, ""⟩, ⟨"C", 1, ""⟩, ⟨"D", 1, ""⟩] 0 0 55 "" []).2.2 = 90 ∧
    (35 : ℚ) / 4 = 8.75 := by
  have h := sectionLoop_progress_spec (fun _ => Except.ok "c")
    [⟨"A", 1, ""⟩, ⟨"B", 1, ""⟩, ⟨"C", 1, ""⟩, ⟨"D", 1, ""⟩] 4 0 rfl (by norm_num) (by decide)
  exact ⟨h.2.2.1, h.2.2.2.2⟩

/-- Claim C9: executeResearch is total over every completion-service behavior
and surfaces failure exclusively through the event stream: every run's trace
either contains no error event and ends with the complete event, or contains
exactly one error event, which is the final event of the trace. -/
theorem executeResearch_never_throws (q : String) (oracle : Oracle) :
    (countErrors (executeResearch q oracle) = 0 ∧
      ∃ m, lastEv (executeResearch q oracle) = some (Event.complete m)) ∨
    (countErrors (executeResearch q oracle) = 1 ∧
      ∃ m, lastEv (executeResearch q oracle) = some (Event.error m)) := by
  rcases (traceShape q oracle).1 with ⟨h1, h2, -⟩ | ⟨h1, h2, -⟩
  · exact Or.inr ⟨h1, h2⟩
  · exact Or.inl ⟨h1, h2⟩

/-- Claim C10: a direct JSON-array parse of the question response is returned
as-is when it has fewer than five elements — the synthesized fallback is not
applied — so the empty-array response yields the empty question list, the
answer stage makes no completion call, and the run emits no qa event. -/
theorem parseQuestions_small_array_exact :
    (∀ q r xs, jsonParse r = some (Json.arr xs) → xs.length < 5 →
      parseQuestions q r = xs) ∧
    (∀ q, parseQuestions q "[]" = []) ∧
    (∀ q (oracle : Oracle), oracle 0 = Except.ok "[]" →
      (∀ x y, Event.qa x y ∉ executeResearch q oracle) ∧
      answerFollowUpQuestions oracle 1 (parseQuestions q "[]") = (1, Except.ok [])) := by
  refine ⟨?_, ?_, ?_⟩
  · intro q r xs h hlt
    simp only [parseQuestions, h]
    exact List.take_of_length_le (by omega)
  · intro q
    rfl
  · intro q oracle h
    constructor
    · intro x y hxy
      obtain ⟨r0, hr0, hx⟩ := (traceShape q oracle).2 x y hxy
      rw [h] at hr0
      injection hr0 with hr0
      subst hr0
      rw [show parseQuestions q "[]" = [] from rfl] at hx
      cases hx
    · rw [show parseQuestions q "[]" = [] from rfl]
      rfl

theorem parseQuestions_small_array_exact_witness :
    parseQuestions "q" "[]" = [] ∧
    (∀ x y, Event.qa x y ∉ executeResearch "q" (fun _ => Except.ok "[]")) := by
  have h1 := parseQuestions_small_array_exact.1 "q" "[]" [] rfl (by norm_num)
  have h3 := (parseQuestions_small_array_exact.2.2 "q" (fun _ => Except.ok "[]") rfl).1
  exact ⟨h1, h3⟩
